import Mathlib

/-!
Verification of the speedsanta round-based assignment and settlement engine.

The repository ships two revisions of the engine (`src/lib/firebase.ts` and an
alternate revision of the same module).  Both are embedded below: the named
revision in namespace `Firebase`, the alternate revision in namespace
`Part002`.  Firestore plumbing (document fetch, snapshots) is outside the
model: every operation is modelled as a pure transform of a `Room` value, and
`arrayUnion` is modelled with the Firestore append-if-absent semantics.
The `Math.random()` shuffles are modelled by explicit reordering functions
passed as parameters.
-/

/-- `Participant` record from `types.ts`.  The optional `recipient` property is
an `Option`; a JS object without the property reads as `none`. -/
structure Participant where
  username : String
  spent : Int
  received : Int
  isGifter : Bool
  recipient : Option String := none
deriving Repr, DecidableEq

/-- `Assignment` record from `types.ts`. -/
structure Assignment where
  gifter : String
  recipient : String
deriving Repr, DecidableEq

/-- `Gift` record.  `timestamp` and `isHidden` are `Option` because the
`Firebase` revision constructs the gift object without those properties while
the `Part002` revision sets both. -/
structure Gift where
  id : String
  gifter : String
  recipient : String
  description : String
  amount : Int
  timestamp : Option Int := none
  isHidden : Option Bool := none
deriving Repr, DecidableEq

/-- `Room` aggregate from `types.ts`. -/
structure Room where
  id : String
  name : String
  budget : Int
  gameStarted : Bool
  participants : List Participant
  gifts : List Gift
  activeAssignments : List Assignment
  createdAt : Int
  createdBy : String
deriving Repr, DecidableEq

/-- Firestore `arrayUnion`: append the element unless an equal element is
already present. -/
def arrayUnion {α : Type} [DecidableEq α] (l : List α) (x : α) : List α :=
  if x ∈ l then l else l ++ [x]

/-- The `updatedParticipants` map inside `addGift` (identical in both
revisions): add `amount` to the `spent` of the gifter, and to the `received` of the
`received` otherwise. -/
def updateBalances (ps : List Participant) (gifter recipient : String)
    (amount : Int) : List Participant :=
  ps.map fun p =>
    if p.username == gifter then { p with spent := p.spent + amount }
    else if p.username == recipient then { p with received := p.received + amount }
    else p

/-- The `finalParticipants` map inside `addGift` (identical in both
revisions): clear the flag and recipient reference of the settled gifter. -/
def clearGifter (ps : List Participant) (gifter : String) : List Participant :=
  ps.map fun p =>
    if p.username == gifter then { p with isGifter := false, recipient := none }
    else p

/-- The participant update applied at the end of `startGame` and `addGift`
(identical in both revisions): set `isGifter` and `recipient` from the
resulting assignment list (`?? null` reads as `none`). -/
def applyAssignments (ps : List Participant) (assignments : List Assignment) :
    List Participant :=
  ps.map fun p =>
    { p with
      isGifter := assignments.any fun a => a.gifter == p.username
      recipient := (assignments.find? fun a => a.gifter == p.username).map Assignment.recipient }

/-- `joinRoom` (identical in both revisions), as a pure transform of the room
it reads: returns the boolean result together with the updated room. -/
def joinRoom (room : Room) (username : String) : Bool × Room :=
  if room.gameStarted && !(room.participants.any fun p => p.username == username) then
    (false, room)
  else if room.participants.any fun p => p.username == username then
    (true, room)
  else
    (true, { room with
      participants := arrayUnion room.participants
        { username := username, spent := 0, received := 0, isGifter := false } })

/-- Spent amount of the participant with the given username (0 if absent). -/
def spentOf (ps : List Participant) (u : String) : Int :=
  ((ps.find? fun p => p.username == u).map Participant.spent).getD 0

/-- Sum of all `spent` fields. -/
def sumSpent (ps : List Participant) : Int :=
  (ps.map Participant.spent).sum

/-- Sum of all `received` fields. -/
def sumReceived (ps : List Participant) : Int :=
  (ps.map Participant.received).sum

/-- Number of participants carrying the given username. -/
def countName (ps : List Participant) (u : String) : Nat :=
  ps.countP fun p => p.username == u

namespace Firebase

/-- `eligibleRecipients` filter: participants with `received < budget`. -/
def eligibleRecipients (ps : List Participant) (budget : Int) : List Participant :=
  ps.filter fun p => decide (p.received < budget)

/-- `peopleWhoHaventGifted` inside `createAssignments`: `spent === 0` and not
among `prevGifters`. -/
def peopleWhoHaventGifted (ps : List Participant) (prevGifters : List String) :
    List Participant :=
  ps.filter fun p => p.spent == 0 && !(prevGifters.contains p.username)

/-- The fallback branch of `availableGifters` inside `createAssignments`. -/
def fallbackGifters (ps : List Participant) (prevGifters : List String) :
    List Participant :=
  ps.filter fun p => !p.isGifter && !(prevGifters.contains p.username)

/-- `availableGifters` inside `createAssignments`: the `spent === 0` tier when
non-empty, otherwise the fallback. -/
def availableGifters (ps : List Participant) (prevGifters : List String) :
    List Participant :=
  if (peopleWhoHaventGifted ps prevGifters).length > 0 then
    peopleWhoHaventGifted ps prevGifters
  else fallbackGifters ps prevGifters

/-- The greedy pairing loop shared by `createAssignments` and
`createNewAssignments`: for each shuffled gifter, take the first shuffled
recipient that is not the gifter itself and not in `used`; stop once
`off + assignments.length` reaches `m` (`off` is the count of already active
assignments, `0` for `createAssignments`). -/
def pairLoop (sr : List Participant) (m off : Nat) :
    List Participant → List String → List Assignment → List Assignment
  | [], _, acc => acc
  | g :: gs, used, acc =>
    match sr.find? fun r => r.username != g.username && !(used.contains r.username) with
    | none => pairLoop sr m off gs used acc
    | some r =>
      let acc2 := acc ++ [{ gifter := g.username, recipient := r.username }]
      if m ≤ off + acc2.length then acc2
      else pairLoop sr m off gs (used ++ [r.username]) acc2

/-- `createAssignments` of the `Firebase` revision.  `σg`/`σr` stand for the
`Math.random()` shuffles of the gifter and recipient arrays. -/
def createAssignments (ps : List Participant) (budget : Int)
    (prevGifters : List String)
    (σg σr : List Participant → List Participant) : List Assignment :=
  if (eligibleRecipients ps budget).length == 0
      || (availableGifters ps prevGifters).length == 0 then []
  else
    pairLoop (σr (eligibleRecipients ps budget)) (ps.length / 2) 0
      (σg (availableGifters ps prevGifters)) [] []

/-- `peopleWhoHaventGifted` inside `createNewAssignments`: `spent === 0`, not
a gifter of a current assignment (checked twice in the source, via
`currentAssignments.some` and via `prevGifters.includes`), and not excluded. -/
def newPeopleWhoHaventGifted (ps : List Participant) (cur : List Assignment)
    (ex : List String) : List Participant :=
  ps.filter fun p =>
    p.spent == 0
      && !(cur.any fun a => a.gifter == p.username)
      && !((cur.map Assignment.gifter).contains p.username)
      && !(ex.contains p.username)

/-- The fallback branch of `availableGifters` inside `createNewAssignments`. -/
def newFallbackGifters (ps : List Participant) (cur : List Assignment)
    (ex : List String) : List Participant :=
  ps.filter fun p =>
    !p.isGifter
      && !(cur.any fun a => a.gifter == p.username)
      && !((cur.map Assignment.gifter).contains p.username)
      && !(ex.contains p.username)

/-- `availableGifters` inside `createNewAssignments`. -/
def newAvailableGifters (ps : List Participant) (cur : List Assignment)
    (ex : List String) : List Participant :=
  if (newPeopleWhoHaventGifted ps cur ex).length > 0 then
    newPeopleWhoHaventGifted ps cur ex
  else newFallbackGifters ps cur ex

/-- `createNewAssignments` of the `Firebase` revision: backfill up to
`floor(n/2)` counting the already active assignments, seeding the used
recipient set with the recipients of the active assignments. -/
def createNewAssignments (ps : List Participant) (budget : Int)
    (cur : List Assignment) (ex : List String)
    (σg σr : List Participant → List Participant) : List Assignment :=
  if (eligibleRecipients ps budget).length == 0
      || (newAvailableGifters ps cur ex).length == 0 then []
  else if ps.length / 2 ≤ cur.length then []
  else
    pairLoop (σr (eligibleRecipients ps budget)) (ps.length / 2) cur.length
      (σg (newAvailableGifters ps cur ex)) (cur.map Assignment.recipient) []

/-- Participant list produced by the settlement steps of `addGift` before the
backfill: balances updated, settled gifter cleared. -/
def settledParticipants (room : Room) (g r : String) (amt : Int) :
    List Participant :=
  clearGifter (updateBalances room.participants g r amt) g

/-- `updatedAssignments` inside `addGift`: drop the settled pair. -/
def remainingAssignments (room : Room) (g r : String) : List Assignment :=
  room.activeAssignments.filter fun a => !(a.gifter == g && a.recipient == r)

/-- The backfill invocation inside `addGift`: exclusion set `[g]`. -/
def backfillAssignments (room : Room) (g r : String) (amt : Int)
    (σg σr : List Participant → List Participant) : List Assignment :=
  createNewAssignments (settledParticipants room g r amt) room.budget
    (remainingAssignments room g r) [g] σg σr

/-- `addGift` of the `Firebase` revision.  The gift object is constructed
without `timestamp` and without `isHidden`.  `gid` stands for the
`Date.now().toString()` id. -/
def addGift (room : Room) (g r d : String) (amt : Int) (gid : String)
    (σg σr : List Participant → List Participant) : Room :=
  let gift : Gift :=
    { id := gid, gifter := g, recipient := r, description := d, amount := amt }
  let allA := remainingAssignments room g r ++ backfillAssignments room g r amt σg σr
  { room with
    gifts := arrayUnion room.gifts gift
    participants := applyAssignments (settledParticipants room g r amt) allA
    activeAssignments := allA }

/-- The room produced by `startGame` once the participant-count guard has
passed: fresh assignments replace `activeAssignments`. -/
def startGameRoom (room : Room)
    (σg σr : List Participant → List Participant) : Room :=
  let assignments :=
    createAssignments room.participants room.budget
      (room.activeAssignments.map Assignment.gifter) σg σr
  { room with
    gameStarted := true
    activeAssignments := assignments
    participants := applyAssignments room.participants assignments }

/-- `startGame` of the `Firebase` revision: at least 3 participants. -/
def startGame (room : Room)
    (σg σr : List Participant → List Participant) : Except String Room :=
  if room.participants.length < 3 then
    .error "Need at least 3 participants to start"
  else .ok (startGameRoom room σg σr)

end Firebase

namespace Part002

/-- `createAssignments` of the alternate revision: pair the shuffled gifter
and recipient arrays index by index up to `floor(n/2)`, with no
self-assignment check and no fairness tier. -/
def createAssignments (ps : List Participant) (budget : Int)
    (σg σr : List Participant → List Participant) : List Assignment :=
  let eligible := ps.filter fun p => decide (p.received < budget)
  let avail := ps.filter fun p => !p.isGifter
  if eligible.length == 0 || avail.length == 0 then []
  else
    (((σg avail).zip (σr eligible)).take (ps.length / 2)).map
      fun gr => { gifter := gr.1.username, recipient := gr.2.username }

/-- `createNewAssignments` of the alternate revision: no exclusion set, no
fairness tier, used recipients not seeded from the active assignments. -/
def createNewAssignments (ps : List Participant) (budget : Int)
    (cur : List Assignment)
    (σg σr : List Participant → List Participant) : List Assignment :=
  let eligible := ps.filter fun p => decide (p.received < budget)
  let avail := ps.filter fun p =>
    !p.isGifter && !(cur.any fun a => a.gifter == p.username)
  if eligible.length == 0 || avail.length == 0 then []
  else if ps.length / 2 ≤ cur.length then []
  else
    (((σg avail).zip (σr eligible)).take (ps.length / 2 - cur.length)).map
      fun gr => { gifter := gr.1.username, recipient := gr.2.username }

/-- `addGift` of the alternate revision: the gift carries `timestamp` and
`isHidden = true`; the backfill is invoked without an exclusion set. -/
def addGift (room : Room) (g r d : String) (amt : Int) (gid : String)
    (ts : Int) (σg σr : List Participant → List Participant) : Room :=
  let gift : Gift :=
    { id := gid, gifter := g, recipient := r, description := d, amount := amt
      timestamp := some ts, isHidden := some true }
  let upd := room.activeAssignments.filter fun a => !(a.gifter == g && a.recipient == r)
  let fps := clearGifter (updateBalances room.participants g r amt) g
  let allA := upd ++ createNewAssignments fps room.budget upd σg σr
  { room with
    gifts := arrayUnion room.gifts gift
    participants := applyAssignments fps allA
    activeAssignments := allA }

end Part002

/-! Sample inputs used by concrete theorems. -/

/-- Participant constructor helper. -/
def mkP (u : String) (s r : Int) (g : Bool) (rec : Option String := none) :
    Participant :=
  { username := u, spent := s, received := r, isGifter := g, recipient := rec }

/-- Room constructor helper (budget 100). -/
def mkRoom (started : Bool) (ps : List Participant) (as : List Assignment) : Room :=
  { id := "rm", name := "room", budget := 100, gameStarted := started,
    participants := ps, gifts := [], activeAssignments := as,
    createdAt := 0, createdBy := "A" }

/-- A started 3-person room with the single active assignment A→B. -/
def sampleRoom3 : Room :=
  mkRoom true [mkP "A" 0 0 true (some "B"), mkP "B" 0 0 false, mkP "C" 0 0 false]
    [{ gifter := "A", recipient := "B" }]

/-- `sampleRoom3` after one successful settlement of (A, B, 40). -/
def settledOnce : Room := Firebase.addGift sampleRoom3 "A" "B" "d" 40 "g1" id id

/-- A room whose game has not started yet. -/
def freshRoom : Room := mkRoom false [mkP "A" 0 0 false] []

/-- Two participants, B already at budget: input showing the alternate
revision can pair A with itself. -/
def selfPairPs : List Participant := [mkP "A" 0 0 false, mkP "B" 0 100 false]

/-- A has spent 0 but is excluded, B and C have positive spent: input showing
the fallback tier can pick a spent-positive gifter. -/
def fallbackPs : List Participant :=
  [mkP "A" 0 0 false, mkP "B" 5 0 false, mkP "C" 3 0 false]

/-- Four participants, A an active gifter of A→B, A and D at budget: input
showing the alternate revision reuses recipient B. -/
def dupRecipPs : List Participant :=
  [mkP "A" 0 100 true (some "B"), mkP "D" 0 100 false,
   mkP "B" 0 0 false, mkP "C" 0 0 false]

/-- The active assignment A→B matching `dupRecipPs`. -/
def dupRecipCur : List Assignment := [{ gifter := "A", recipient := "B" }]

/-- Four-person room with active assignments A→B and C→D, used to settle
(A, B) under the alternate revision. -/
def resettleRoom : Room :=
  mkRoom true
    [mkP "A" 0 0 true (some "B"), mkP "B" 0 0 false,
     mkP "C" 0 0 true (some "D"), mkP "D" 0 0 false]
    [{ gifter := "A", recipient := "B" }, { gifter := "C", recipient := "D" }]

/-- Three participants all with spent 0 except C. -/
def tierPs : List Participant :=
  [mkP "A" 0 0 false, mkP "B" 0 0 false, mkP "C" 5 0 false]

/-- Room with two active assignments sharing gifter A, used to instantiate
the backfill-exclusion theorem at an assignment that survives the filter. -/
def twoGifterRoom : Room :=
  mkRoom true
    [mkP "A" 0 0 true (some "B"), mkP "B" 0 0 false, mkP "C" 0 0 false]
    [{ gifter := "A", recipient := "B" }, { gifter := "A", recipient := "C" }]

/-! Helper lemmas. -/

theorem nodup_append_singleton {α : Type} (l : List α) (x : α)
    (h1 : l.Nodup) (h2 : x ∉ l) : (l ++ [x]).Nodup := by
  simp [List.nodup_append]
  constructor
  . exact h1
  . exact h2

theorem arrayUnion_of_not_mem {α : Type} [DecidableEq α] (l : List α) (x : α)
    (h : x ∉ l) : arrayUnion l x = l ++ [x] := by
  unfold arrayUnion
  rw [if_neg h]

theorem mem_pairLoop_self (sr : List Participant) (m off : Nat) :
    ∀ gs used acc, (∀ a ∈ acc, a.gifter ≠ a.recipient) →
      ∀ a ∈ Firebase.pairLoop sr m off gs used acc, a.gifter ≠ a.recipient := by
  intro gs
  induction gs with
  | nil => intro used acc hacc a ha; exact hacc a ha
  | cons g gs ih =>
    intro used acc hacc a ha
    simp only [Firebase.pairLoop] at ha
    split at ha
    . exact ih used acc hacc a ha
    . rename_i r heq
      have hpred := List.find?_some heq
      have hne : r.username ≠ g.username := by
        simp [Bool.and_eq_true] at hpred
        exact hpred.1
      have hacc2 : ∀ b ∈ acc ++
          [({ gifter := g.username, recipient := r.username } : Assignment)],
          b.gifter ≠ b.recipient := by
        intro b hb
        rcases List.mem_append.mp hb with hb1 | hb1
        . exact hacc b hb1
        . rw [List.mem_singleton.mp hb1]
          exact fun hgr => hne hgr.symm
      split at ha
      . exact hacc2 a ha
      . exact ih (used ++ [r.username]) _ hacc2 a ha

theorem mem_pairLoop_gifters (sr : List Participant) (m off : Nat) :
    ∀ gs used acc, ∀ a ∈ Firebase.pairLoop sr m off gs used acc,
      a ∈ acc ∨ ∃ g ∈ gs, a.gifter = g.username := by
  intro gs
  induction gs with
  | nil => intro used acc a ha; exact Or.inl ha
  | cons g gs ih =>
    intro used acc a ha
    simp only [Firebase.pairLoop] at ha
    split at ha
    . rcases ih used acc a ha with h | ⟨g2, hg2, he⟩
      . exact Or.inl h
      . exact Or.inr ⟨g2, List.mem_cons_of_mem g hg2, he⟩
    . rename_i r heq
      have hnew : ∀ b ∈ acc ++
          [({ gifter := g.username, recipient := r.username } : Assignment)],
          b ∈ acc ∨ b.gifter = g.username := by
        intro b hb
        rcases List.mem_append.mp hb with hb1 | hb1
        . exact Or.inl hb1
        . rw [List.mem_singleton.mp hb1]
          exact Or.inr rfl
      split at ha
      . rcases hnew a ha with h | h
        . exact Or.inl h
        . exact Or.inr ⟨g, List.mem_cons_self g gs, h⟩
      . rcases ih _ _ a ha with h | ⟨g2, hg2, he⟩
        . rcases hnew a h with h1 | h1
          . exact Or.inl h1
          . exact Or.inr ⟨g, List.mem_cons_self g gs, h1⟩
        . exact Or.inr ⟨g2, List.mem_cons_of_mem g hg2, he⟩

theorem pairLoop_length_le (sr : List Participant) (m off : Nat) :
    ∀ gs used acc, off + acc.length < m →
      off + (Firebase.pairLoop sr m off gs used acc).length ≤ m := by
  intro gs
  induction gs with
  | nil =>
    intro used acc h
    simp only [Firebase.pairLoop]
    omega
  | cons g gs ih =>
    intro used acc h
    simp only [Firebase.pairLoop]
    split
    . exact ih used acc h
    . rename_i r heq
      split
      . rename_i hge
        simp only [List.length_append, List.length_cons, List.length_nil]
        omega
      . rename_i hlt
        apply ih
        simp only [List.length_append, List.length_cons, List.length_nil] at hlt ⊢
        omega

theorem pairLoop_recipients_nodup (sr : List Participant) (m off : Nat) :
    ∀ gs used acc (P : List String),
      (P ++ acc.map Assignment.recipient).Nodup →
      (∀ u ∈ P ++ acc.map Assignment.recipient, u ∈ used) →
      (P ++ (Firebase.pairLoop sr m off gs used acc).map Assignment.recipient).Nodup := by
  intro gs
  induction gs with
  | nil =>
    intro used acc P hnd _
    simpa [Firebase.pairLoop] using hnd
  | cons g gs ih =>
    intro used acc P hnd hused
    simp only [Firebase.pairLoop]
    split
    . exact ih used acc P hnd hused
    . rename_i r heq
      have hpred := List.find?_some heq
      have hnotmem : r.username ∉ used := by
        simp [Bool.and_eq_true] at hpred
        exact hpred.2
      have hfresh : r.username ∉ P ++ acc.map Assignment.recipient :=
        fun hmem => hnotmem (hused _ hmem)
      have hnd2 : (P ++ ((acc ++
          [({ gifter := g.username, recipient := r.username } : Assignment)]).map
            Assignment.recipient)).Nodup := by
        have hstep := nodup_append_singleton
          (P ++ acc.map Assignment.recipient) r.username hnd hfresh
        simpa [List.append_assoc] using hstep
      have hused2 : ∀ u ∈ P ++ ((acc ++
          [({ gifter := g.username, recipient := r.username } : Assignment)]).map
            Assignment.recipient), u ∈ used ++ [r.username] := by
        intro u hu
        rcases List.mem_append.mp hu with h | h
        . exact List.mem_append.mpr
            (Or.inl (hused u (List.mem_append.mpr (Or.inl h))))
        . rw [List.map_append] at h
          rcases List.mem_append.mp h with h1 | h1
          . exact List.mem_append.mpr
              (Or.inl (hused u (List.mem_append.mpr (Or.inr h1))))
          . simp at h1
            simp [h1]
      split
      . exact hnd2
      . exact ih (used ++ [r.username]) _ P hnd2 hused2

theorem sumSpent_cons (p : Participant) (ps : List Participant) :
    sumSpent (p :: ps) = p.spent + sumSpent ps := by
  simp [sumSpent]

theorem sumReceived_cons (p : Participant) (ps : List Participant) :
    sumReceived (p :: ps) = p.received + sumReceived ps := by
  simp [sumReceived]

theorem sumSpent_map_eq (f : Participant → Participant)
    (hf : ∀ p, (f p).spent = p.spent) :
    ∀ ps, sumSpent (ps.map f) = sumSpent ps := by
  intro ps
  induction ps with
  | nil => rfl
  | cons p ps ih =>
    rw [List.map_cons, sumSpent_cons, sumSpent_cons, hf p, ih]

theorem sumReceived_map_eq (f : Participant → Participant)
    (hf : ∀ p, (f p).received = p.received) :
    ∀ ps, sumReceived (ps.map f) = sumReceived ps := by
  intro ps
  induction ps with
  | nil => rfl
  | cons p ps ih =>
    rw [List.map_cons, sumReceived_cons, sumReceived_cons, hf p, ih]

theorem spent_applyAssignments (ps : List Participant) (as : List Assignment) :
    sumSpent (applyAssignments ps as) = sumSpent ps := by
  unfold applyAssignments
  apply sumSpent_map_eq
  intro p
  rfl

theorem received_applyAssignments (ps : List Participant) (as : List Assignment) :
    sumReceived (applyAssignments ps as) = sumReceived ps := by
  unfold applyAssignments
  apply sumReceived_map_eq
  intro p
  rfl

theorem spent_clearGifter (ps : List Participant) (g : String) :
    sumSpent (clearGifter ps g) = sumSpent ps := by
  unfold clearGifter
  apply sumSpent_map_eq
  intro p
  split <;> rfl

theorem received_clearGifter (ps : List Participant) (g : String) :
    sumReceived (clearGifter ps g) = sumReceived ps := by
  unfold clearGifter
  apply sumReceived_map_eq
  intro p
  split <;> rfl

theorem countName_cons (p : Participant) (ps : List Participant) (u : String) :
    countName (p :: ps) u = countName ps u + if p.username == u then 1 else 0 := by
  simp [countName, List.countP_cons]

theorem sumSpent_updateBalances (g r : String) (amt : Int) :
    ∀ ps, sumSpent (updateBalances ps g r amt)
      = sumSpent ps + amt * (countName ps g : Int) := by
  intro ps
  induction ps with
  | nil => simp [updateBalances, sumSpent, countName]
  | cons p ps ih =>
    have hcons : updateBalances (p :: ps) g r amt
        = (if p.username == g then { p with spent := p.spent + amt }
           else if p.username == r then { p with received := p.received + amt }
           else p) :: updateBalances ps g r amt := rfl
    rw [hcons, sumSpent_cons, sumSpent_cons, countName_cons, ih]
    cases hg : p.username == g with
    | true =>
      simp only [hg, if_true]
      push_cast
      ring
    | false =>
      have hsp : (if p.username == r
          then { p with received := p.received + amt } else p).spent = p.spent := by
        split <;> rfl
      simp only [hg, if_false, Bool.false_eq_true, hsp]
      push_cast
      ring

theorem sumReceived_updateBalances (g r : String) (amt : Int) (hgr : g ≠ r) :
    ∀ ps, sumReceived (updateBalances ps g r amt)
      = sumReceived ps + amt * (countName ps r : Int) := by
  intro ps
  induction ps with
  | nil => simp [updateBalances, sumReceived, countName]
  | cons p ps ih =>
    have hcons : updateBalances (p :: ps) g r amt
        = (if p.username == g then { p with spent := p.spent + amt }
           else if p.username == r then { p with received := p.received + amt }
           else p) :: updateBalances ps g r amt := rfl
    rw [hcons, sumReceived_cons, sumReceived_cons, countName_cons, ih]
    cases hg : p.username == g with
    | true =>
      have hpr : (p.username == r) = false := by
        have hpg : p.username = g := beq_iff_eq.mp hg
        rw [hpg]
        simpa using hgr
      simp only [hg, if_true, hpr, if_false, Bool.false_eq_true]
      push_cast
      ring
    | false =>
      cases hr : p.username == r with
      | true =>
        simp only [hg, if_false, hr, if_true, Bool.false_eq_true]
        push_cast
        ring
      | false =>
        simp only [hg, hr, if_false, Bool.false_eq_true]
        push_cast
        ring

theorem addGift_participants_eq (room : Room) (g r d : String) (amt : Int)
    (gid : String) (σg σr : List Participant → List Participant) :
    (Firebase.addGift room g r d amt gid σg σr).participants
      = applyAssignments (Firebase.settledParticipants room g r amt)
          (Firebase.remainingAssignments room g r
            ++ Firebase.backfillAssignments room g r amt σg σr) := rfl

theorem addGift_active_eq (room : Room) (g r d : String) (amt : Int)
    (gid : String) (σg σr : List Participant → List Participant) :
    (Firebase.addGift room g r d amt gid σg σr).activeAssignments
      = Firebase.remainingAssignments room g r
          ++ Firebase.backfillAssignments room g r amt σg σr := rfl

theorem addGift_gifts_eq (room : Room) (g r d : String) (amt : Int)
    (gid : String) (σg σr : List Participant → List Participant) :
    (Firebase.addGift room g r d amt gid σg σr).gifts
      = arrayUnion room.gifts
          { id := gid, gifter := g, recipient := r, description := d,
            amount := amt } := rfl

theorem part002_addGift_participants_eq (room : Room) (g r d : String)
    (amt : Int) (gid : String) (ts : Int)
    (σg σr : List Participant → List Participant) :
    (Part002.addGift room g r d amt gid ts σg σr).participants
      = applyAssignments (clearGifter (updateBalances room.participants g r amt) g)
          ((room.activeAssignments.filter fun a => !(a.gifter == g && a.recipient == r))
            ++ Part002.createNewAssignments
                (clearGifter (updateBalances room.participants g r amt) g)
                room.budget
                (room.activeAssignments.filter fun a => !(a.gifter == g && a.recipient == r))
                σg σr) := rfl

theorem part002_addGift_gifts_eq (room : Room) (g r d : String) (amt : Int)
    (gid : String) (ts : Int) (σg σr : List Participant → List Participant) :
    (Part002.addGift room g r d amt gid ts σg σr).gifts
      = arrayUnion room.gifts
          { id := gid, gifter := g, recipient := r, description := d,
            amount := amt, timestamp := some ts, isHidden := some true } := rfl

theorem settledParticipants_eq (room : Room) (g r : String) (amt : Int) :
    Firebase.settledParticipants room g r amt
      = clearGifter (updateBalances room.participants g r amt) g := rfl

theorem remainingAssignments_of_unmatched (room : Room) (g r : String)
    (h : ∀ a ∈ room.activeAssignments, ¬(a.gifter = g ∧ a.recipient = r)) :
    Firebase.remainingAssignments room g r = room.activeAssignments := by
  apply List.filter_eq_self.mpr
  intro a ha
  have h2 := h a ha
  by_cases hg : a.gifter = g
  . have hr : a.recipient ≠ r := fun hr => h2 ⟨hg, hr⟩
    simp [hg, hr]
  . simp [hg]

theorem gift_not_mem_of_fresh_id (gifts : List Gift) (x : Gift)
    (h : ∀ old ∈ gifts, old.id ≠ x.id) : x ∉ gifts :=
  fun hmem => h x hmem rfl

theorem mem_newAvailableGifters_not_excluded (ps : List Participant)
    (cur : List Assignment) (ex : List String) (p : Participant)
    (h : p ∈ Firebase.newAvailableGifters ps cur ex) : p.username ∉ ex := by
  unfold Firebase.newAvailableGifters at h
  split at h
  . have h2 := (List.mem_filter.mp h).2
    simp [Bool.and_eq_true] at h2
    tauto
  . have h2 := (List.mem_filter.mp h).2
    simp [Bool.and_eq_true] at h2
    tauto

theorem newAvailableGifters_of_tier (ps : List Participant)
    (cur : List Assignment) (ex : List String)
    (h : Firebase.newPeopleWhoHaventGifted ps cur ex ≠ []) :
    Firebase.newAvailableGifters ps cur ex
      = Firebase.newPeopleWhoHaventGifted ps cur ex := by
  unfold Firebase.newAvailableGifters
  rw [if_pos]
  exact List.length_pos.mpr h

theorem mem_tier_spent_zero (ps : List Participant) (cur : List Assignment)
    (ex : List String) (p : Participant)
    (h : p ∈ Firebase.newPeopleWhoHaventGifted ps cur ex) :
    p ∈ ps ∧ p.spent = 0 := by
  have h1 := List.mem_filter.mp h
  refine ⟨h1.1, ?_⟩
  have h2 := h1.2
  simp [Bool.and_eq_true] at h2
  tauto

theorem createNewAssignments_gifters_available (ps : List Participant)
    (budget : Int) (cur : List Assignment) (ex : List String)
    (σg σr : List Participant → List Participant)
    (hσ : ∀ (l : List Participant), ∀ x ∈ σg l, x ∈ l) :
    ∀ a ∈ Firebase.createNewAssignments ps budget cur ex σg σr,
      ∃ p ∈ Firebase.newAvailableGifters ps cur ex, a.gifter = p.username := by
  intro a ha
  unfold Firebase.createNewAssignments at ha
  split at ha
  . simp at ha
  . split at ha
    . simp at ha
    . rcases mem_pairLoop_gifters _ _ _ _ _ _ a ha with h | ⟨p, hp, he⟩
      . simp at h
      . exact ⟨p, hσ _ p hp, he⟩

theorem createNewAssignments_recipients_nodup (ps : List Participant)
    (budget : Int) (cur : List Assignment) (ex : List String)
    (σg σr : List Participant → List Participant)
    (h : (cur.map Assignment.recipient).Nodup) :
    ((cur ++ Firebase.createNewAssignments ps budget cur ex σg σr).map
      Assignment.recipient).Nodup := by
  unfold Firebase.createNewAssignments
  split
  . simpa using h
  . split
    . simpa using h
    . rw [List.map_append]
      exact pairLoop_recipients_nodup
        (σr (Firebase.eligibleRecipients ps budget)) (ps.length / 2) cur.length
        (σg (Firebase.newAvailableGifters ps cur ex))
        (cur.map Assignment.recipient) [] (cur.map Assignment.recipient)
        (by simpa using h) (by intro u hu; simpa using hu)

theorem startGameRoom_recipients_nodup (room : Room)
    (σg σr : List Participant → List Participant) :
    ((Firebase.startGameRoom room σg σr).activeAssignments.map
      Assignment.recipient).Nodup := by
  have hproj : (Firebase.startGameRoom room σg σr).activeAssignments
      = Firebase.createAssignments room.participants room.budget
          (room.activeAssignments.map Assignment.gifter) σg σr := rfl
  rw [hproj]
  unfold Firebase.createAssignments
  split
  . simp
  . have := pairLoop_recipients_nodup
      (σr (Firebase.eligibleRecipients room.participants room.budget))
      (room.participants.length / 2) 0
      (σg (Firebase.availableGifters room.participants
        (room.activeAssignments.map Assignment.gifter)))
      [] [] []
      (by simp) (by intro u hu; simp at hu)
    simpa using this

/-- Claim C3 (amended): in the `Firebase` revision, every assignment produced
by `createAssignments` or `createNewAssignments` satisfies
`gifter ≠ recipient`, for every input and every shuffle; the `Part002`
revision lacks the self-check and can pair a participant with itself. -/
theorem assignments_never_self (ps : List Participant) (budget : Int)
    (prev : List String) (cur : List Assignment) (ex : List String)
    (σg σr : List Participant → List Participant) :
    (∀ a ∈ Firebase.createAssignments ps budget prev σg σr,
      a.gifter ≠ a.recipient)
    ∧ (∀ a ∈ Firebase.createNewAssignments ps budget cur ex σg σr,
      a.gifter ≠ a.recipient) := by
  constructor
  . intro a ha
    unfold Firebase.createAssignments at ha
    split at ha
    . simp at ha
    . exact mem_pairLoop_self _ _ _ _ _ _ (by intro b hb; simp at hb) a ha
  . intro a ha
    unfold Firebase.createNewAssignments at ha
    split at ha
    . simp at ha
    . split at ha
      . simp at ha
      . exact mem_pairLoop_self _ _ _ _ _ _ (by intro b hb; simp at hb) a ha

/-- Witness for `assignments_never_self` at a concrete three-person input. -/
theorem assignments_never_self_witness :
    ({ gifter := "A", recipient := "B" } : Assignment).gifter
      ≠ ({ gifter := "A", recipient := "B" } : Assignment).recipient :=
  (assignments_never_self tierPs 100 [] [] [] id id).1
    { gifter := "A", recipient := "B" } (by decide)

/-- Claim C3 counterexample: `createAssignments` of the `Part002` revision,
run on two participants of whom only A is an eligible recipient, with the
identity shuffle, assigns A to gift to itself. -/
theorem part002_createAssignments_self_pair :
    Part002.createAssignments selfPairPs 100 id id
        = [{ gifter := "A", recipient := "A" }]
    ∧ ((Part002.createAssignments selfPairPs 100 id id).all
        fun a => a.gifter != a.recipient) = false := by
  constructor
  . decide
  . decide

/-- Claim C4 (amended): whenever the `spent == 0` tier of
`createNewAssignments` (participants with `spent == 0` that are not already
gifters of a current assignment and not in the exclusion set) is non-empty,
every gifter it selects comes from that tier, hence has `spent == 0`.  A
participant with `spent == 0` that is already a gifter or excluded does not
protect the tier, and then the fallback may select a gifter with positive
spent. -/
theorem fairness_tier_nonempty (ps : List Participant) (budget : Int)
    (cur : List Assignment) (ex : List String)
    (σg σr : List Participant → List Participant)
    (hσ : ∀ (l : List Participant), ∀ x ∈ σg l, x ∈ l)
    (htier : Firebase.newPeopleWhoHaventGifted ps cur ex ≠ []) :
    ∀ a ∈ Firebase.createNewAssignments ps budget cur ex σg σr,
      ∃ p ∈ ps, p.username = a.gifter ∧ p.spent = 0 := by
  intro a ha
  rcases createNewAssignments_gifters_available ps budget cur ex σg σr hσ a ha
    with ⟨p, hp, he⟩
  rw [newAvailableGifters_of_tier ps cur ex htier] at hp
  rcases mem_tier_spent_zero ps cur ex p hp with ⟨hmem, hz⟩
  exact ⟨p, hmem, he.symm, hz⟩

/-- Witness for `fairness_tier_nonempty` at a concrete input whose tier is
non-empty and whose output contains the assignment A→B. -/
theorem fairness_tier_nonempty_witness :
    ∃ p ∈ tierPs,
      p.username = ({ gifter := "A", recipient := "B" } : Assignment).gifter
        ∧ p.spent = 0 :=
  fairness_tier_nonempty tierPs 100 [] [] id id
    (fun l x hx => hx) (by decide)
    { gifter := "A", recipient := "B" } (by decide)

/-- Claim C4 counterexample: `fallbackPs` contains a participant with
`spent == 0` (namely A), yet with A excluded the fallback tier selects B,
whose spent is 5 > 0. -/
theorem fallback_selects_spent_positive_gifter :
    (fallbackPs.any fun p => p.spent == 0) = true
    ∧ Firebase.createNewAssignments fallbackPs 100 [] ["A"] id id
        = [{ gifter := "B", recipient := "A" }]
    ∧ spentOf fallbackPs "B" = 5 := by
  refine ⟨?_, ?_, ?_⟩
  . decide
  . decide
  . decide

/-- Claim C6: in both revisions, the backfill computation never pushes the
active-assignment count past `floor(n/2)`: within the bound it stays within
the bound, and at or above the bound, or with no eligible recipients or no
available gifters, it returns the empty list (so the merged active set is
unchanged). -/
theorem capacity_bound (ps : List Participant) (budget : Int)
    (cur : List Assignment) (ex : List String)
    (σg σr : List Participant → List Participant) :
    (cur.length ≤ ps.length / 2 →
      (cur ++ Firebase.createNewAssignments ps budget cur ex σg σr).length
        ≤ ps.length / 2)
    ∧ (ps.length / 2 ≤ cur.length →
      Firebase.createNewAssignments ps budget cur ex σg σr = [])
    ∧ (Firebase.eligibleRecipients ps budget = [] →
      Firebase.createNewAssignments ps budget cur ex σg σr = [])
    ∧ (Firebase.newAvailableGifters ps cur ex = [] →
      Firebase.createNewAssignments ps budget cur ex σg σr = [])
    ∧ (cur.length ≤ ps.length / 2 →
      (cur ++ Part002.createNewAssignments ps budget cur σg σr).length
        ≤ ps.length / 2)
    ∧ (ps.length / 2 ≤ cur.length →
      Part002.createNewAssignments ps budget cur σg σr = [])
    ∧ ((ps.filter fun p => decide (p.received < budget)) = [] →
      Part002.createNewAssignments ps budget cur σg σr = [])
    ∧ ((ps.filter fun p =>
        !p.isGifter && !(cur.any fun a => a.gifter == p.username)) = [] →
      Part002.createNewAssignments ps budget cur σg σr = []) := by
  refine ⟨?_, ?_, ?_, ?_, ?_, ?_, ?_, ?_⟩
  . intro hle
    unfold Firebase.createNewAssignments
    split
    . simpa using hle
    . split
      . simpa using hle
      . rename_i h1 h2
        rw [List.length_append]
        have hlt : cur.length
            + ([] : List Assignment).length < ps.length / 2 := by
          simp
          omega
        have hb := pairLoop_length_le
          (σr (Firebase.eligibleRecipients ps budget)) (ps.length / 2) cur.length
          (σg (Firebase.newAvailableGifters ps cur ex))
          (cur.map Assignment.recipient) [] hlt
        omega
  . intro hge
    unfold Firebase.createNewAssignments
    split
    . rfl
    . rfl
  . intro he
    simp [Firebase.createNewAssignments, he]
  . intro hg
    simp [Firebase.createNewAssignments, hg]
  . intro hle
    simp only [Part002.createNewAssignments]
    split
    . simpa using hle
    . split
      . simpa using hle
      . rename_i h1 h2
        rw [List.length_append, List.length_map, List.length_take]
        omega
  . intro hge
    simp only [Part002.createNewAssignments]
    split
    . rfl
    . rfl
  . intro he
    simp [Part002.createNewAssignments, he]
  . intro hg
    simp [Part002.createNewAssignments, hg]

/-- Witness for `capacity_bound` at concrete four-person and three-person
inputs with one active assignment, for both revisions. -/
theorem capacity_bound_witness :
    (dupRecipCur ++ Firebase.createNewAssignments dupRecipPs 100 dupRecipCur []
        id id).length ≤ dupRecipPs.length / 2
    ∧ Firebase.createNewAssignments fallbackPs 100
        [{ gifter := "A", recipient := "B" }] [] id id = []
    ∧ (dupRecipCur ++ Part002.createNewAssignments dupRecipPs 100 dupRecipCur
        id id).length ≤ dupRecipPs.length / 2
    ∧ Part002.createNewAssignments fallbackPs 100
        [{ gifter := "A", recipient := "B" }] id id = [] :=
  ⟨(capacity_bound dupRecipPs 100 dupRecipCur [] id id).1 (by decide),
   (capacity_bound fallbackPs 100 [{ gifter := "A", recipient := "B" }] []
     id id).2.1 (by decide),
   (capacity_bound dupRecipPs 100 dupRecipCur [] id id).2.2.2.2.1 (by decide),
   (capacity_bound fallbackPs 100 [{ gifter := "A", recipient := "B" }] []
     id id).2.2.2.2.2.1 (by decide)⟩

/-- Claim C8 (amended): in the `Firebase` revision, the backfill inside
`addGift` passes the exclusion set `[gifter]`, so if the settled gifter
appears as the gifter of an active assignment after the call, that
assignment was already active before the call (it was never backfilled);
the `Part002` revision passes no exclusion set and can immediately
re-select the settled gifter. -/
theorem settled_gifter_not_rebackfilled (room : Room) (g r d : String)
    (amt : Int) (gid : String)
    (σg σr : List Participant → List Participant)
    (hσ : ∀ (l : List Participant), ∀ x ∈ σg l, x ∈ l) :
    ∀ a ∈ (Firebase.addGift room g r d amt gid σg σr).activeAssignments,
      a.gifter = g → a ∈ room.activeAssignments := by
  intro a ha hg
  rw [addGift_active_eq] at ha
  rcases List.mem_append.mp ha with h | h
  . exact (List.mem_filter.mp h).1
  . exfalso
    unfold Firebase.backfillAssignments at h
    rcases createNewAssignments_gifters_available _ _ _ _ _ _ hσ a h
      with ⟨p, hp, he⟩
    have hnot := mem_newAvailableGifters_not_excluded _ _ _ p hp
    apply hnot
    rw [← he, hg]
    exact List.mem_singleton.mpr rfl

/-- Witness for `settled_gifter_not_rebackfilled` at a concrete input where
an assignment with the settled gifter survives the settlement filter. -/
theorem settled_gifter_not_rebackfilled_witness :
    ({ gifter := "A", recipient := "C" } : Assignment)
      ∈ twoGifterRoom.activeAssignments :=
  settled_gifter_not_rebackfilled twoGifterRoom "A" "B" "d" 40 "g1" id id
    (fun l x hx => hx) { gifter := "A", recipient := "C" } (by decide) rfl

/-- Claim C8 counterexample: under the `Part002` revision, settling the
active assignment (A, B) can immediately reassign A as a gifter (here even
to itself): the exclusion of the just-settled gifter is absent. -/
theorem part002_resettles_settled_gifter :
    ({ gifter := "A", recipient := "B" } : Assignment)
      ∈ resettleRoom.activeAssignments
    ∧ (((Part002.addGift resettleRoom "A" "B" "d" 40 "g1" 0 id id).activeAssignments).any
        fun a => a.gifter == "A") = true
    ∧ ({ gifter := "A", recipient := "A" } : Assignment)
      ∈ (Part002.addGift resettleRoom "A" "B" "d" 40 "g1" 0 id id).activeAssignments
    ∧ ({ gifter := "A", recipient := "A" } : Assignment)
      ∉ resettleRoom.activeAssignments := by
  refine ⟨?_, ?_, ?_, ?_⟩
  . decide
  . decide
  . decide
  . decide

/-- Claim C5 (amended): in the `Firebase` revision, after `startGame` the
recipients of the active assignments are pairwise distinct, and `addGift`
preserves distinctness of active recipients (the backfill seeds its used
set with the remaining active recipients); the `Part002` revision does not
seed the used set and can assign a recipient that is already active. -/
theorem recipient_exclusivity_ops (room : Room) (g r d : String) (amt : Int)
    (gid : String) (σg σr : List Participant → List Participant) :
    ((Firebase.startGameRoom room σg σr).activeAssignments.map
       Assignment.recipient).Nodup
    ∧ ((room.activeAssignments.map Assignment.recipient).Nodup →
       ((Firebase.addGift room g r d amt gid σg σr).activeAssignments.map
          Assignment.recipient).Nodup) := by
  constructor
  . exact startGameRoom_recipients_nodup room σg σr
  . intro h
    rw [addGift_active_eq]
    unfold Firebase.backfillAssignments
    apply createNewAssignments_recipients_nodup
    have hsub : List.Sublist (Firebase.remainingAssignments room g r)
        room.activeAssignments := by
      unfold Firebase.remainingAssignments
      exact List.filter_sublist room.activeAssignments
    exact h.sublist (hsub.map Assignment.recipient)

/-- Witness for `recipient_exclusivity_ops` at a concrete room. -/
theorem recipient_exclusivity_ops_witness :
    ((Firebase.startGameRoom sampleRoom3 id id).activeAssignments.map
       Assignment.recipient).Nodup
    ∧ ((Firebase.addGift sampleRoom3 "A" "B" "d" 40 "g1" id id).activeAssignments.map
        Assignment.recipient).Nodup :=
  ⟨(recipient_exclusivity_ops sampleRoom3 "A" "B" "d" 40 "g1" id id).1,
   (recipient_exclusivity_ops sampleRoom3 "A" "B" "d" 40 "g1" id id).2 (by decide)⟩

/-- Claim C5 counterexample: under the `Part002` revision, with A→B active
and A, D at budget, the backfill produces D→B, so B is the recipient of two
simultaneously active assignments. -/
theorem part002_duplicate_recipient :
    Part002.createNewAssignments dupRecipPs 100 dupRecipCur id id
        = [{ gifter := "D", recipient := "B" }]
    ∧ ¬ (((dupRecipCur ++ Part002.createNewAssignments dupRecipPs 100 dupRecipCur id id).map
          Assignment.recipient).Nodup) := by
  constructor
  . decide
  . decide

theorem filter_unmatched_eq_self (l : List Assignment) (g r : String)
    (h : ∀ a ∈ l, ¬(a.gifter = g ∧ a.recipient = r)) :
    (l.filter fun a => !(a.gifter == g && a.recipient == r)) = l := by
  apply List.filter_eq_self.mpr
  intro a ha
  have h2 := h a ha
  by_cases hg : a.gifter = g
  . have hr : a.recipient ≠ r := fun hr => h2 ⟨hg, hr⟩
    simp [hg, hr]
  . simp [hg]

theorem part002_addGift_active_eq (room : Room) (g r d : String) (amt : Int)
    (gid : String) (ts : Int) (σg σr : List Participant → List Participant) :
    (Part002.addGift room g r d amt gid ts σg σr).activeAssignments
      = (room.activeAssignments.filter fun a => !(a.gifter == g && a.recipient == r))
          ++ Part002.createNewAssignments
              (clearGifter (updateBalances room.participants g r amt) g)
              room.budget
              (room.activeAssignments.filter fun a => !(a.gifter == g && a.recipient == r))
              σg σr := rfl

/-- Claim C1 (amended): `addGift` performs no assignment validation, in
either revision.  When no
active assignment matches (gifter, recipient), the call does not fail and
does not remove any assignment: the active set after the call is the old set
plus the backfill, and the spent of the gifter is still incremented.  In
particular a second identical call after a successful one mutates the room
again instead of returning an assignment-not-found error. -/
theorem addGift_unmatched_still_mutates (room : Room) (g r d : String)
    (amt : Int) (gid : String) (ts : Int)
    (σg σr : List Participant → List Participant)
    (h : ∀ a ∈ room.activeAssignments, ¬(a.gifter = g ∧ a.recipient = r)) :
    (∃ backfill,
      (Firebase.addGift room g r d amt gid σg σr).activeAssignments
        = room.activeAssignments ++ backfill)
    ∧ sumSpent (Firebase.addGift room g r d amt gid σg σr).participants
        = sumSpent room.participants
          + amt * (countName room.participants g : Int)
    ∧ (∃ backfill,
      (Part002.addGift room g r d amt gid ts σg σr).activeAssignments
        = room.activeAssignments ++ backfill)
    ∧ sumSpent (Part002.addGift room g r d amt gid ts σg σr).participants
        = sumSpent room.participants
          + amt * (countName room.participants g : Int) := by
  refine ⟨?_, ?_, ?_, ?_⟩
  . refine ⟨Firebase.backfillAssignments room g r amt σg σr, ?_⟩
    rw [addGift_active_eq, remainingAssignments_of_unmatched room g r h]
  . rw [addGift_participants_eq, spent_applyAssignments, settledParticipants_eq,
        spent_clearGifter, sumSpent_updateBalances]
  . refine ⟨Part002.createNewAssignments
        (clearGifter (updateBalances room.participants g r amt) g) room.budget
        (room.activeAssignments.filter fun a => !(a.gifter == g && a.recipient == r))
        σg σr, ?_⟩
    rw [part002_addGift_active_eq,
        filter_unmatched_eq_self room.activeAssignments g r h]
  . rw [part002_addGift_participants_eq, spent_applyAssignments,
        spent_clearGifter, sumSpent_updateBalances]

/-- Witness for `addGift_unmatched_still_mutates`: settling (A, B) a second
time, when the active set no longer contains that pair. -/
theorem addGift_unmatched_still_mutates_witness :
    (∃ backfill,
      (Firebase.addGift settledOnce "A" "B" "d" 40 "g2" id id).activeAssignments
        = settledOnce.activeAssignments ++ backfill)
    ∧ sumSpent (Firebase.addGift settledOnce "A" "B" "d" 40 "g2" id id).participants
        = sumSpent settledOnce.participants
          + 40 * (countName settledOnce.participants "A" : Int)
    ∧ (∃ backfill,
      (Part002.addGift settledOnce "A" "B" "d" 40 "g2" 0 id id).activeAssignments
        = settledOnce.activeAssignments ++ backfill)
    ∧ sumSpent (Part002.addGift settledOnce "A" "B" "d" 40 "g2" 0 id id).participants
        = sumSpent settledOnce.participants
          + 40 * (countName settledOnce.participants "A" : Int) :=
  addGift_unmatched_still_mutates settledOnce "A" "B" "d" 40 "g2" 0 id id
    (by decide)

/-- Claim C1 counterexample: after one successful settlement of (A, B, 40),
no active assignment matches (A, B) any more, yet the second identical call
returns a changed room with the spent of A doubled to 80 — it neither fails nor
leaves the room unchanged. -/
theorem addGift_second_call_mutates_again :
    (settledOnce.activeAssignments.all
        fun a => !(a.gifter == "A" && a.recipient == "B")) = true
    ∧ spentOf settledOnce.participants "A" = 40
    ∧ Firebase.addGift settledOnce "A" "B" "d" 40 "g2" id id ≠ settledOnce
    ∧ spentOf (Firebase.addGift settledOnce "A" "B" "d" 40 "g2" id id).participants
        "A" = 80
    ∧ Part002.addGift settledOnce "A" "B" "d" 40 "g2" 0 id id ≠ settledOnce
    ∧ spentOf (Part002.addGift settledOnce "A" "B" "d" 40 "g2" 0 id id).participants
        "A" = 80 := by
  refine ⟨?_, ?_, ?_, ?_, ?_, ?_⟩ <;> decide

/-- Claim C2: when the gifter and recipient are two distinct uniquely named
participants of the room and the spent and received totals agree before a
settlement, they agree after it, in both revisions of `addGift`: the call
adds the amount to exactly one spent and one received total. -/
theorem addGift_conservation (room : Room) (g r d : String) (amt : Int)
    (gid : String) (ts : Int) (σg σr : List Participant → List Participant)
    (hg : countName room.participants g = 1)
    (hr : countName room.participants r = 1)
    (hgr : g ≠ r)
    (hbal : sumSpent room.participants = sumReceived room.participants) :
    sumSpent (Firebase.addGift room g r d amt gid σg σr).participants
      = sumReceived (Firebase.addGift room g r d amt gid σg σr).participants
    ∧ sumSpent (Part002.addGift room g r d amt gid ts σg σr).participants
      = sumReceived (Part002.addGift room g r d amt gid ts σg σr).participants := by
  constructor
  . rw [addGift_participants_eq, spent_applyAssignments,
        received_applyAssignments, settledParticipants_eq, spent_clearGifter,
        received_clearGifter, sumSpent_updateBalances,
        sumReceived_updateBalances g r amt hgr, hg, hr, hbal]
  . rw [part002_addGift_participants_eq, spent_applyAssignments,
        received_applyAssignments, spent_clearGifter, received_clearGifter,
        sumSpent_updateBalances, sumReceived_updateBalances g r amt hgr,
        hg, hr, hbal]

/-- Witness for `addGift_conservation` at a concrete balanced room. -/
theorem addGift_conservation_witness :
    sumSpent (Firebase.addGift sampleRoom3 "A" "B" "d" 40 "g1" id id).participants
      = sumReceived (Firebase.addGift sampleRoom3 "A" "B" "d" 40 "g1" id id).participants
    ∧ sumSpent (Part002.addGift sampleRoom3 "A" "B" "d" 40 "g1" 0 id id).participants
      = sumReceived (Part002.addGift sampleRoom3 "A" "B" "d" 40 "g1" 0 id id).participants :=
  addGift_conservation sampleRoom3 "A" "B" "d" 40 "g1" 0 id id
    (by decide) (by decide) (by decide) (by decide)

/-- Claim C7 (amended): `addGift` performs no amount validation, in either
revision: for every amount, non-positive amounts included, the mutation is
applied — the gift is appended to the ledger (given a fresh id) and, for
distinct gifter and recipient usernames, the spent total and the received
total each move by the amount. -/
theorem addGift_nonpositive_amount_mutates (room : Room) (g r d : String)
    (amt : Int) (gid : String) (ts : Int)
    (σg σr : List Participant → List Participant)
    (_hamt : amt ≤ 0)
    (hgr : g ≠ r)
    (hfresh : ∀ old ∈ room.gifts, old.id ≠ gid) :
    (Firebase.addGift room g r d amt gid σg σr).gifts
      = room.gifts ++
          [{ id := gid, gifter := g, recipient := r, description := d,
             amount := amt }]
    ∧ (Part002.addGift room g r d amt gid ts σg σr).gifts
      = room.gifts ++
          [{ id := gid, gifter := g, recipient := r, description := d,
             amount := amt, timestamp := some ts, isHidden := some true }]
    ∧ sumSpent (Firebase.addGift room g r d amt gid σg σr).participants
      = sumSpent room.participants
        + amt * (countName room.participants g : Int)
    ∧ sumReceived (Firebase.addGift room g r d amt gid σg σr).participants
      = sumReceived room.participants
        + amt * (countName room.participants r : Int)
    ∧ sumSpent (Part002.addGift room g r d amt gid ts σg σr).participants
      = sumSpent room.participants
        + amt * (countName room.participants g : Int)
    ∧ sumReceived (Part002.addGift room g r d amt gid ts σg σr).participants
      = sumReceived room.participants
        + amt * (countName room.participants r : Int) := by
  refine ⟨?_, ?_, ?_, ?_, ?_, ?_⟩
  . rw [addGift_gifts_eq]
    apply arrayUnion_of_not_mem
    exact gift_not_mem_of_fresh_id room.gifts _ hfresh
  . rw [part002_addGift_gifts_eq]
    apply arrayUnion_of_not_mem
    exact gift_not_mem_of_fresh_id room.gifts _ hfresh
  . rw [addGift_participants_eq, spent_applyAssignments, settledParticipants_eq,
        spent_clearGifter, sumSpent_updateBalances]
  . rw [addGift_participants_eq, received_applyAssignments,
        settledParticipants_eq, received_clearGifter,
        sumReceived_updateBalances g r amt hgr]
  . rw [part002_addGift_participants_eq, spent_applyAssignments,
        spent_clearGifter, sumSpent_updateBalances]
  . rw [part002_addGift_participants_eq, received_applyAssignments,
        received_clearGifter, sumReceived_updateBalances g r amt hgr]

/-- Witness for `addGift_nonpositive_amount_mutates` with amount -5, in both
revisions. -/
theorem addGift_nonpositive_amount_mutates_witness :
    (Firebase.addGift sampleRoom3 "A" "B" "d" (-5) "g1" id id).gifts
      = sampleRoom3.gifts ++
          [{ id := "g1", gifter := "A", recipient := "B", description := "d",
             amount := -5 }]
    ∧ (Part002.addGift sampleRoom3 "A" "B" "d" (-5) "g1" 0 id id).gifts
      = sampleRoom3.gifts ++
          [{ id := "g1", gifter := "A", recipient := "B", description := "d",
             amount := -5, timestamp := some 0, isHidden := some true }]
    ∧ sumSpent (Firebase.addGift sampleRoom3 "A" "B" "d" (-5) "g1" id id).participants
      = sumSpent sampleRoom3.participants
        + (-5) * (countName sampleRoom3.participants "A" : Int)
    ∧ sumReceived (Firebase.addGift sampleRoom3 "A" "B" "d" (-5) "g1" id id).participants
      = sumReceived sampleRoom3.participants
        + (-5) * (countName sampleRoom3.participants "B" : Int)
    ∧ sumSpent (Part002.addGift sampleRoom3 "A" "B" "d" (-5) "g1" 0 id id).participants
      = sumSpent sampleRoom3.participants
        + (-5) * (countName sampleRoom3.participants "A" : Int)
    ∧ sumReceived (Part002.addGift sampleRoom3 "A" "B" "d" (-5) "g1" 0 id id).participants
      = sumReceived sampleRoom3.participants
        + (-5) * (countName sampleRoom3.participants "B" : Int) :=
  addGift_nonpositive_amount_mutates sampleRoom3 "A" "B" "d" (-5) "g1" 0 id id
    (by decide) (by decide) (by decide)

/-- Claim C7 counterexample: with the matching active assignment present and
amount -5, `addGift` in either revision neither fails nor leaves the room
unchanged: the ledger grows and the spent of A becomes -5. -/
theorem addGift_negative_amount_applied :
    (Firebase.addGift sampleRoom3 "A" "B" "d" (-5) "g1" id id).gifts.length = 1
    ∧ sampleRoom3.gifts.length = 0
    ∧ spentOf (Firebase.addGift sampleRoom3 "A" "B" "d" (-5) "g1" id id).participants
        "A" = -5
    ∧ (Part002.addGift sampleRoom3 "A" "B" "d" (-5) "g1" 0 id id).gifts.length = 1
    ∧ spentOf (Part002.addGift sampleRoom3 "A" "B" "d" (-5) "g1" 0 id id).participants
        "A" = -5 := by
  refine ⟨?_, ?_, ?_, ?_, ?_⟩ <;> decide

/-- Claim C9 (amended): each successful `addGift` appends exactly one gift
record (given a fresh id).  In the `Part002` revision the record carries
`isHidden = true`; in the `Firebase` revision the gift object is built
without the `isHidden` (and `timestamp`) property, so the stored record is
not hidden-marked. -/
theorem addGift_gift_record (room : Room) (g r d : String) (amt : Int)
    (gid : String) (ts : Int) (σg σr : List Participant → List Participant)
    (hfresh : ∀ old ∈ room.gifts, old.id ≠ gid) :
    (Part002.addGift room g r d amt gid ts σg σr).gifts
      = room.gifts ++
          [{ id := gid, gifter := g, recipient := r, description := d,
             amount := amt, timestamp := some ts, isHidden := some true }]
    ∧ (Firebase.addGift room g r d amt gid σg σr).gifts
      = room.gifts ++
          [{ id := gid, gifter := g, recipient := r, description := d,
             amount := amt }] := by
  constructor
  . rw [part002_addGift_gifts_eq]
    apply arrayUnion_of_not_mem
    exact gift_not_mem_of_fresh_id room.gifts _ hfresh
  . rw [addGift_gifts_eq]
    apply arrayUnion_of_not_mem
    exact gift_not_mem_of_fresh_id room.gifts _ hfresh

/-- Witness for `addGift_gift_record` at a concrete room with empty ledger. -/
theorem addGift_gift_record_witness :
    (Part002.addGift sampleRoom3 "A" "B" "d" 40 "g1" 7 id id).gifts
      = sampleRoom3.gifts ++
          [{ id := "g1", gifter := "A", recipient := "B", description := "d",
             amount := 40, timestamp := some 7, isHidden := some true }]
    ∧ (Firebase.addGift sampleRoom3 "A" "B" "d" 40 "g1" id id).gifts
      = sampleRoom3.gifts ++
          [{ id := "g1", gifter := "A", recipient := "B", description := "d",
             amount := 40 }] :=
  addGift_gift_record sampleRoom3 "A" "B" "d" 40 "g1" 7 id id (by decide)

/-- Claim C9 counterexample: the gift record of the `Firebase` revision carries no
`isHidden` property, so in particular it is not created with
`isHidden = true`. -/
theorem firebase_gift_without_hidden_flag :
    (Firebase.addGift sampleRoom3 "A" "B" "d" 40 "g1" id id).gifts
      = [{ id := "g1", gifter := "A", recipient := "B", description := "d",
           amount := 40 }]
    ∧ ((Firebase.addGift sampleRoom3 "A" "B" "d" 40 "g1" id id).gifts.all
        fun gf => gf.isHidden != some true) = true := by
  constructor <;> decide

/-- Claim C10: `joinRoom` is idempotent at the public interface: a username
already present yields `true` with the room unchanged; an absent username in
a not-yet-started game yields `true` with exactly one new participant
appended, starting with spent 0, received 0, and isGifter false. -/
theorem joinRoom_public_interface (room : Room) (u : String) :
    ((room.participants.any fun p => p.username == u) = true →
      joinRoom room u = (true, room))
    ∧ ((room.participants.any fun p => p.username == u) = false →
      room.gameStarted = false →
      joinRoom room u = (true, { room with participants :=
        room.participants ++
          [{ username := u, spent := 0, received := 0, isGifter := false }] })) := by
  constructor
  . intro h
    unfold joinRoom
    simp [h]
  . intro h hg
    have hnot :
        ({ username := u, spent := 0, received := 0, isGifter := false } : Participant)
          ∉ room.participants := by
      intro hmem
      have hany : (room.participants.any fun p => p.username == u) = true :=
        List.any_eq_true.mpr ⟨_, hmem, by simp⟩
      rw [h] at hany
      exact Bool.false_ne_true hany
    unfold joinRoom
    simp [h, hg, arrayUnion_of_not_mem _ _ hnot]

/-- Witness for `joinRoom_public_interface`: re-joining as A is a no-op, and
Z joining the fresh room appends one zeroed participant. -/
theorem joinRoom_public_interface_witness :
    joinRoom sampleRoom3 "A" = (true, sampleRoom3)
    ∧ joinRoom freshRoom "Z" = (true, { freshRoom with participants :=
        freshRoom.participants ++
          [{ username := "Z", spent := 0, received := 0, isGifter := false }] }) :=
  ⟨(joinRoom_public_interface sampleRoom3 "A").1 (by decide),
   (joinRoom_public_interface freshRoom "Z").2 (by decide) (by decide)⟩
